import Mathlib

/-
Verification of the libmangal chapter-download and Anilist metadata-resolution
pipeline. The Go sources are shallowly embedded: pure functions become Lean
functions, stateful code threads explicit state (cache maps, an in-memory
filesystem model), concurrency is serialized in index order, and fallible
operations return Except. Go strings that are searched and truncated are
modelled as lists of characters; byte-level versus rune-level slicing does
not affect any property proved here. External collaborators (HTTP transport,
provider, encoders backed by external libraries) enter as oracle parameters.
-/

namespace Libmangal

/-- Association-list lookup, used to model the string-keyed cache stores and
directory listings. Returns the value at the first matching key. -/
def alookup {α β : Type} [DecidableEq α] : List (α × β) → α → Option β
  | [], _ => none
  | (k, v) :: rest, key => if k = key then some v else alookup rest key

/-- Association-list update modelling CacheStore.Set: replaces the first
binding of the key, or appends a new binding. -/
def aset {α β : Type} [DecidableEq α] : List (α × β) → α → β → List (α × β)
  | [], key, val => [(key, val)]
  | (k, v) :: rest, key, val =>
      if k = key then (key, val) :: rest else (k, v) :: aset rest key val

/-!
## Rate-limit-aware request loop (anilist.go, sendRequest)

sendRequest marshals the request, posts it and inspects the response:
on HTTP 429 it reads the rate-limit header, substitutes "90" when the header
is absent (empty), parses it with strconv.Atoi, sleeps that many seconds and
retransmits the identical request by recursing; a non-429, non-200 status is
an error; on 200 the body is decoded and a GraphQL-level error in the body is
surfaced. We model the transport by a script of responses consumed in order,
and record the performed sleeps so that waiting behaviour is observable.
-/

/-- One HTTP response as seen by sendRequest: status code, the rate-limit
header value (empty string when the header is absent, as Go Header.Get
returns), the status text used for non-200 errors, the GraphQL body error
when present, and the decoded payload. -/
structure RlResponse where
  status : Nat
  rateLimitHeader : String
  statusText : String
  bodyError : Option String
  data : Nat
  deriving Repr, DecidableEq

/-- Digit-string accumulator used by the strconv.Atoi model. -/
def atoiDigits : List Char → Nat → Option Nat
  | [], acc => some acc
  | c :: rest, acc =>
      if c.isDigit then atoiDigits rest (acc * 10 + (c.toNat - 48)) else none

/-- Sign-and-digits parser over the character list of the header value. -/
def atoiChars : List Char → Option Int
  | [] => none
  | c :: rest =>
      if c = '-' then
        if rest = [] then none else (atoiDigits rest 0).map (fun n => -(n : Int))
      else if c = '+' then
        if rest = [] then none else (atoiDigits rest 0).map (fun n => (n : Int))
      else (atoiDigits (c :: rest) 0).map (fun n => (n : Int))

/-- Models strconv.Atoi on the header value: an optional sign followed by
decimal digits; anything else is a parse error (none). Overflow is ignored. -/
def atoi? (s : String) : Option Int :=
  atoiChars s.data

/-- Outcome of sendRequest: the list of sleeps performed (in seconds, in
order) together with the decoded data or the error returned to the caller. -/
inductive SendOutcome where
  | ok (sleeps : List Int) (data : Nat)
  | err (sleeps : List Int) (msg : String)
  deriving Repr, DecidableEq

/-- Prepends one performed sleep to an outcome. -/
def prependSleep (s : Int) : SendOutcome → SendOutcome
  | .ok sleeps d => .ok (s :: sleeps) d
  | .err sleeps m => .err (s :: sleeps) m

/-- Embeds sendRequest (anilist.go). The response script is consumed one
response per transmission; the recursion on 429 models the retransmission of
the identical request. An exhausted script is a transport error (not a source
code path; it only bounds the model). -/
def sendRequest : List RlResponse → SendOutcome
  | [] => .err [] "transport: no response"
  | r :: rest =>
    if r.status = 429 then
      let retryAfter := if r.rateLimitHeader = "" then "90" else r.rateLimitHeader
      match atoi? retryAfter with
      | none => .err [] ("strconv.Atoi: parsing " ++ retryAfter)
      | some seconds => prependSleep seconds (sendRequest rest)
    else if r.status = 200 then
      match r.bodyError with
      | some m => .err [] m
      | none => .ok [] r.data
    else .err [] r.statusText

/-!
## Anilist metadata resolver (anilist.go, anilist_cache.go)

The three caches are keyed by strings in Go; queries and titles are modelled
as lists of characters, and the id-to-record cache is keyed by the integer id
(Go keys it by strconv.Itoa of the id, an injective encoding). CacheStore.Get
is modelled as an infallible lookup on in-memory maps; CacheStore.Set may be
made to fail through the environment, modelling a failing store, so that the
write-ordering behaviour of SearchMangas is observable. The network and the
GetClosestManga options hook are oracle parameters. Network-call counts are
returned so that cache short-circuiting is observable.
-/

/-- Character-list strings used for queries and titles. -/
abbrev Str := List Char

/-- Trims unicode whitespace from both ends (strings.TrimSpace). -/
def trimChars (s : Str) : Str :=
  ((s.dropWhile Char.isWhitespace).reverse.dropWhile Char.isWhitespace).reverse

/-- Embeds unifyString (provider_handle.go): lowercase of the trimmed string. -/
def unifyString (s : Str) : Str :=
  (trimChars s).map Char.toLower

/-- An Anilist manga record, reduced to the fields the resolver logic reads:
the numeric id and a rendering title (the full record carries many more
descriptive fields that the control flow never inspects). -/
structure AnilistManga where
  id : Int
  title : Str
  deriving Repr, DecidableEq

/-- The three cache stores of the Anilist resolver (AnilistOptions):
query to id list (cache 1), normalized title to id (cache 2), and
id to record (cache 3). -/
structure AnilistState where
  queryToIds : List (Str × List Int)
  titleToId : List (Str × Int)
  idToManga : List (Int × AnilistManga)
  deriving Repr, DecidableEq

/-- Environment of the resolver: the network endpoints (search by name and
lookup by id, already decoded; a confirmed missing id surfaces as the
"manga by id not found" error as in getByID), the GetClosestManga options
hook, and failure injection for the three Set operations of the stores. -/
structure AnilistEnv where
  searchNet : Str → Except String (List AnilistManga)
  getByIdNet : Int → Except String AnilistManga
  getClosestManga : Str → List AnilistManga → Option AnilistManga
  setQueryFails : Str → Bool
  setTitleFails : Str → Bool
  setIdFails : Int → Bool

/-- Embeds Anilist.GetByID (anilist.go): cache-3 hit returns the record with
no network call; on a miss the record is fetched, cached with cacheSetId
(whose failure aborts), and returned. The third component counts network
calls. -/
def GetByID (env : AnilistEnv) (st : AnilistState) (id : Int) :
    Except String AnilistManga × AnilistState × Nat :=
  match alookup st.idToManga id with
  | some manga => (.ok manga, st, 0)
  | none =>
    match env.getByIdNet id with
    | .error e => (.error e, st, 1)
    | .ok manga =>
      if env.setIdFails id then (.error "cache set id failed", st, 1)
      else (.ok manga, { st with idToManga := aset st.idToManga id manga }, 1)

/-- Embeds the cache-hit loop of Anilist.SearchMangas: each cached id is
resolved through GetByID in order; the first error aborts. -/
def resolveIds (env : AnilistEnv) (st : AnilistState) :
    List Int → Except String (List AnilistManga) × AnilistState × Nat
  | [] => (.ok [], st, 0)
  | id :: rest =>
    match GetByID env st id with
    | (.error e, st1, n) => (.error e, st1, n)
    | (.ok manga, st1, n) =>
      match resolveIds env st1 rest with
      | (.error e, st2, n2) => (.error e, st2, n + n2)
      | (.ok mangas, st2, n2) => (.ok (manga :: mangas), st2, n + n2)

/-- Embeds the fresh-search loop of Anilist.SearchMangas: every returned
record is written to cache-3 with cacheSetId, collecting the id list; the
first failing write aborts, keeping the writes already performed. -/
def setIdAll (env : AnilistEnv) (st : AnilistState) :
    List AnilistManga → Except String (List Int) × AnilistState
  | [] => (.ok [], st)
  | manga :: rest =>
    if env.setIdFails manga.id then (.error "cache set id failed", st)
    else
      let st1 := { st with idToManga := aset st.idToManga manga.id manga }
      match setIdAll env st1 rest with
      | (.error e, st2) => (.error e, st2)
      | (.ok ids, st2) => (.ok (manga.id :: ids), st2)

/-- Embeds Anilist.SearchMangas (anilist.go): unify the query; on a cache-1
hit resolve every cached id via GetByID; on a miss run the network search,
cache every record in cache-3, then cache the id list (possibly empty) in
cache-1 under the unified query, and return the records. The Nat component
counts network calls. -/
def SearchMangas (env : AnilistEnv) (st : AnilistState) (query : Str) :
    Except String (List AnilistManga) × AnilistState × Nat :=
  let query := unifyString query
  match alookup st.queryToIds query with
  | some ids => resolveIds env st ids
  | none =>
    match env.searchNet query with
    | .error e => (.error e, st, 1)
    | .ok mangas =>
      match setIdAll env st mangas with
      | (.error e, st1) => (.error e, st1, 1)
      | (.ok ids, st1) =>
        if env.setQueryFails query then (.error "cache set query failed", st1, 1)
        else (.ok mangas, { st1 with queryToIds := aset st1.queryToIds query ids }, 1)

/-- Embeds Anilist.findClosestManga (anilist.go), the bounded
truncation-retry loop: while tries remain, search the current title; on zero
results shorten the title by step characters from the end (never below one
character; abort when already at one character), and retry with the try
counter increased; on results select via GetClosestManga. Alongside the
result and the final cache state, the list of title strings passed to
SearchMangas is returned, so that the number of search invocations and their
arguments are observable. In Go the function returns a possibly nil record
pointer together with an ok flag; the pointer is nil exactly when the flag is
false, so the pair is collapsed into an Option. -/
def findClosestManga (env : AnilistEnv) (st : AnilistState) (currentTitle : Str)
    (step tryIdx limit : Nat) :
    Except String (Option AnilistManga) × AnilistState × List Str :=
  if _h : limit ≤ tryIdx then (.ok none, st, [])
  else
    match SearchMangas env st currentTitle with
    | (.error e, st1, _) => (.error e, st1, [currentTitle])
    | (.ok mangas, st1, _) =>
      if mangas.isEmpty then
        let newLen? : Option Nat :=
          if step < currentTitle.length then some (currentTitle.length - step)
          else if 1 < currentTitle.length then some (currentTitle.length - 1)
          else none
        match newLen? with
        | none => (.ok none, st1, [currentTitle])
        | some newLen =>
          let r := findClosestManga env st1 (currentTitle.take newLen) step (tryIdx + 1) limit
          (r.1, r.2.1, currentTitle :: r.2.2)
      else
        match env.getClosestManga currentTitle mangas with
        | none => (.ok none, st1, [currentTitle])
        | some closest => (.ok (some closest), st1, [currentTitle])
termination_by limit - tryIdx
decreasing_by omega

/-- Outcome of Anilist.FindClosestManga. nilPanic marks the Go run-time
panic that occurs when the expression manga.ID dereferences a nil manga
pointer. -/
inductive FCOutcome where
  | found (manga : AnilistManga)
  | notFound
  | err (msg : String)
  | nilPanic
  deriving Repr, DecidableEq

/-- Embeds the tail of Anilist.FindClosestManga after the cache probes: run
the truncation-retry loop with step 3, try 0, limit 3, then execute
cacheSetTitle(title, manga.ID). When the loop produced no record, manga is
the nil pointer and manga.ID panics; when it produced one, the title-to-id
binding is written (a failing write aborts) and the record is returned. -/
def findClosestMangaUncached (env : AnilistEnv) (st : AnilistState) (title : Str) :
    FCOutcome × AnilistState :=
  match findClosestManga env st title 3 0 3 with
  | (.error e, st1, _) => (.err e, st1)
  | (.ok none, st1, _) => (.nilPanic, st1)
  | (.ok (some manga), st1, _) =>
    if env.setTitleFails title then (.err "cache set title failed", st1)
    else (.found manga, { st1 with titleToId := aset st1.titleToId title manga.id })

/-- Embeds Anilist.FindClosestManga (anilist.go): unify the title; when
cache-2 holds an id whose record is in cache-3, return it; otherwise fall
through to the truncation-retry loop followed by the cacheSetTitle write. -/
def FindClosestManga (env : AnilistEnv) (st : AnilistState) (title : Str) :
    FCOutcome × AnilistState :=
  let title := unifyString title
  match alookup st.titleToId title with
  | some id =>
    match alookup st.idToManga id with
    | some manga => (.found manga, st)
    | none => findClosestMangaUncached env st title
  | none => findClosestMangaUncached env st title

/-- Environment whose network search finds nothing, with all cache writes
succeeding; used to exercise the exhaustion path of the resolver. -/
def envNoResults : AnilistEnv where
  searchNet := fun _ => .ok []
  getByIdNet := fun _ => .error "manga by id not found"
  getClosestManga := fun _ _ => none
  setQueryFails := fun _ => false
  setTitleFails := fun _ => false
  setIdFails := fun _ => false

/-- The empty cache state. -/
def emptyAnilistState : AnilistState where
  queryToIds := []
  titleToId := []
  idToManga := []

/-- Environment whose network search returns one record with id 5, with all
cache writes succeeding. -/
def envOneResult : AnilistEnv where
  searchNet := fun _ => .ok [⟨5, [Char.ofNat 116]⟩]
  getByIdNet := fun _ => .error "manga by id not found"
  getClosestManga := fun _ ms => ms.head?
  setQueryFails := fun _ => false
  setTitleFails := fun _ => false
  setIdFails := fun _ => false

/-!
## Comic-archive encoder (client.go SaveCBZ, metadata.go, options.go)

The zip container is modelled as the ordered list of entries written through
zipWriter.CreateHeader: each entry records its name, its compression method
and its payload. The payload of a page entry is its image bytes; the payload
of the metadata entry is the ComicInfo record to be serialized (the indented
XML rendering is injective on the record and is abstracted away). Images are
byte lists; the SaveCBZ nil-image guard is annotated in the source itself
with "this should not occur" and has no counterpart here. -/

/-- A calendar date (anilist.go Date). -/
structure CIDate where
  year : Int
  month : Int
  day : Int
  deriving Repr, DecidableEq

/-- ComicInfoOptions (options.go): date tweaks for ComicInfo.xml generation.
TagRelevanceThreshold only affects record generation from Anilist data, not
the encoder, and is omitted. -/
structure ComicInfoOptions where
  addDate : Bool
  alternativeDate : Option CIDate
  deriving Repr, DecidableEq

/-- The caller-facing ComicInfo record (metadata.go ComicInfoXml): the
XML-name and namespace-attribute meta fields are serialization constants and
are left to the wrapper. pageCount is the page-count field a caller may have
filled in. -/
structure ComicInfoXml where
  title : String
  series : String
  number : String
  web : String
  genre : String
  pageCount : Int
  summary : String
  count : Int
  characters : String
  year : Int
  month : Int
  day : Int
  writer : String
  penciller : String
  letterer : String
  translator : String
  tags : String
  notes : String
  manga : String
  deriving Repr, DecidableEq

/-- The serialized form of the ComicInfo record, carrying the two fixed
namespace attributes (comicInfoXmlWrapper). -/
structure ComicInfoXmlWrapper where
  xmlnsXsi : String
  xmlnsXsd : String
  record : ComicInfoXml
  deriving Repr, DecidableEq

/-- Modelled from the spec: the wrapper conversion used by the SaveCBZ of
client.go is not under src/ for the primary ComicInfoXml snapshot (only a
sibling snapshot carries one). Per the spec the wrapper serializes the record
with the two fixed namespace attributes and applies the date options; it is
modelled as passing every record field through, including the caller-supplied
page count, which is the worst case for the page-count-overwrite property. -/
def ComicInfoXml.wrapper (c : ComicInfoXml) (options : ComicInfoOptions) :
    ComicInfoXmlWrapper :=
  let c :=
    if !options.addDate then { c with year := 0, month := 0, day := 0 }
    else
      match options.alternativeDate with
      | some d => { c with year := d.year, month := d.month, day := d.day }
      | none => c
  { xmlnsXsi := "http://www.w3.org/2001/XMLSchema-instance"
    xmlnsXsd := "http://www.w3.org/2001/XMLSchema"
    record := c }

/-- Zip entry compression method; Store writes the payload uncompressed. -/
inductive ZipMethod where
  | store
  | deflate
  deriving Repr, DecidableEq

/-- Payload of a zip entry. -/
inductive ZipData where
  | image (bytes : List Nat)
  | comicInfo (wrapper : ComicInfoXmlWrapper)
  deriving Repr, DecidableEq

/-- One entry written through zipWriter.CreateHeader. -/
structure ZipEntry where
  name : String
  method : ZipMethod
  data : ZipData
  deriving Repr, DecidableEq

/-- The fixed reserved metadata entry name (metadata.go). -/
def comicInfoXmlFilename : String := "ComicInfo.xml"

/-- Left-pads the decimal rendering to four digits, the Go format verb
04d used for page entry names. -/
def pad4 (n : Nat) : String :=
  let s := toString n
  ⟨List.replicate (4 - s.length) (Char.ofNat 48)⟩ ++ s

/-- Embeds SaveCBZ (client.go): every page is written uncompressed under the
1-based zero-padded sequential name carrying the page extension, then the
record wrapper is built, its page count is overwritten with the actual
number of pages, and it is written uncompressed under the reserved name.
A page is its extension paired with its image bytes. -/
def SaveCBZ (pages : List (String × List Nat)) (comicInfoXml : ComicInfoXml)
    (options : ComicInfoOptions) : List ZipEntry :=
  (pages.enum.map (fun p =>
    { name := pad4 (p.1 + 1) ++ p.2.1
      method := .store
      data := .image p.2.2 })) ++
  [{ name := comicInfoXmlFilename
     method := .store
     data := .comicInfo
       { comicInfoXml.wrapper options with
           record := { (comicInfoXml.wrapper options).record with
             pageCount := pages.length } } }]

/-- Recognizer for page entries of the archive. -/
def isImageEntry (e : ZipEntry) : Bool :=
  match e.data with
  | .image _ => true
  | _ => false

/-- Recognizer for the metadata entry of the archive. -/
def isMetadataEntry (e : ZipEntry) : Bool :=
  match e.data with
  | .comicInfo _ => true
  | _ => false

/-- A caller record whose page-count field is deliberately wrong (99). -/
def ciSample : ComicInfoXml :=
  ⟨"t", "s", "1", "w", "g", 99, "sum", 3, "ch", 2020, 1, 2,
   "wr", "pe", "le", "tr", "tg", "no", "YesAndRightToLeft"⟩

/-- Date options leaving the record untouched. -/
def optsSample : ComicInfoOptions := ⟨false, none⟩

/-!
## Download orchestrator (client.go, client_util.go)

The afero filesystem is modelled as a flat map from path strings to file
contents plus a set of created directories; filepath.Join is modelled for
clean non-empty components. afero.TempDir is modelled by passing the fresh
temporary directory name as an argument. Network endpoints (provider page
list and page images, ComicInfo generation, series.json generation, cover
download) and the external pdf and zip writers enter through an environment
of oracles; the concurrent errgroup page fan-out is serialized in index
order, which coincides with the errgroup outcome under the single-failure
hypotheses used below. The orchestrator returns the path result, the final
filesystem, and the number of page fetches attempted, so that network
page-fetch activity is observable.
-/

/-- Decidable equality for Except values, used to evaluate concrete runs. -/
instance exceptDecEq {ε α : Type} [DecidableEq ε] [DecidableEq α] :
    DecidableEq (Except ε α)
  | .error e1, .error e2 =>
    if h : e1 = e2 then .isTrue (by rw [h]) else .isFalse (by simp [h])
  | .error _, .ok _ => .isFalse (by simp)
  | .ok _, .error _ => .isFalse (by simp)
  | .ok a1, .ok a2 =>
    if h : a1 = a2 then .isTrue (by rw [h]) else .isFalse (by simp [h])

/-- Content of a file in the model: raw bytes, or the archive entry list
written by SaveCBZ (whose byte serialization by the zip writer is
abstracted). -/
inductive FileContent where
  | bytes (bs : List Nat)
  | cbzArchive (entries : List ZipEntry)
  deriving Repr, DecidableEq

/-- Flat filesystem model: file map plus created directories. -/
structure FS where
  files : List (String × FileContent)
  dirs : List String
  deriving Repr, DecidableEq

/-- Models filepath.Join for clean components. -/
def joinPath (dir name : String) : String :=
  if dir = "" then name else dir ++ "/" ++ name

/-- Models Fs.MkdirAll (parents are implicit in this flat model). -/
def FS.mkdirAll (fs : FS) (p : String) : FS :=
  { fs with dirs := p :: fs.dirs }

/-- Models afero.Exists: a file or directory at the path. -/
def FS.pathExists (fs : FS) (p : String) : Bool :=
  (alookup fs.files p).isSome || fs.dirs.contains p

/-- Models Fs.Create followed by a full write. -/
def FS.createFile (fs : FS) (p : String) (c : FileContent) : FS :=
  { fs with files := aset fs.files p c }

/-- Whether path p equals q or lies strictly below directory q. -/
def isUnder (p q : String) : Bool :=
  p = q || (q ++ "/").isPrefixOf p

/-- Models removeChapter (client.go): removes the file, or the directory
with everything below it. -/
def FS.removeAll (fs : FS) (p : String) : FS :=
  { files := fs.files.filter (fun kv => !(isUnder kv.1 p))
    dirs := fs.dirs.filter (fun d => !(isUnder d p)) }

/-- Rewrites a path when it is the renamed source or lies below it. -/
def replacePrefix (p src dst : String) : String :=
  if p = src then dst
  else if (src ++ "/").isPrefixOf p then dst ++ "/" ++ p.drop (src.length + 1)
  else p

/-- Models Fs.Rename: moves the file or directory subtree at src to dst. -/
def FS.rename (fs : FS) (src dst : String) : FS :=
  { files := fs.files.map (fun kv => (replacePrefix kv.1 src dst, kv.2))
    dirs := fs.dirs.map (fun d => replacePrefix d src dst) }

/-- The auxiliary artifact names (metadata.go). -/
def seriesJsonFilename : String := "series.json"

/-- The cover artifact name (metadata.go). -/
def coverJpgFilename : String := "cover.jpg"

/-- Oracle environment of one DownloadChapter invocation: the provider page
list (as the list of page extensions), the per-index page image fetch, the
generateComicInfo outcome, the outcomes of the external pdf import and of
the zip writes of SaveCBZ, and the series.json and cover generation
outcomes. -/
structure DownloadEnv where
  chapterPages : Except String (List String)
  fetchPage : Nat → Except String (List Nat)
  comicInfo : Except String ComicInfoXml
  savePDF : Except String (List Nat)
  saveCBZResult : Except String Unit
  seriesJson : Except String (List Nat)
  cover : Except String (List Nat)

/-- Output format (format.go). -/
inductive Format where
  | pdf
  | images
  | cbz
  | tar
  | targz
  | zip
  deriving Repr, DecidableEq

/-- DownloadOptions (options.go), restricted to the fields DownloadChapter
reads. -/
structure DownloadOptions where
  format : Format
  createMangaDir : Bool
  createVolumeDir : Bool
  skipIfExists : Bool
  strict : Bool
  writeSeriesJson : Bool
  downloadMangaCover : Bool
  comicInfoOptions : ComicInfoOptions
  deriving Repr, DecidableEq

/-- The three computed path components (client.go Filenames). -/
structure Filenames where
  manga : String
  volume : String
  chapter : String
  deriving Repr, DecidableEq

/-- The zero ComicInfoXml record, the Go zero value generateComicInfo
returns alongside an error. -/
def ComicInfoXml.zero : ComicInfoXml :=
  ⟨"", "", "", "", "", 0, "", 0, "", 0, 0, 0, "", "", "", "", "", "", ""⟩

/-- Embeds the errgroup page fan-out of DownloadPagesInBatch serialized in
index order: page i is fetched; the first error is returned and the
remaining pages are not attempted. Returns the images in their original
index positions together with the number of fetches attempted. -/
def downloadPagesGo (fetch : Nat → Except String (List Nat)) :
    Nat → Nat → Except String (List (List Nat)) × Nat
  | _, 0 => (.ok [], 0)
  | i, n + 1 =>
    match fetch i with
    | .error e => (.error e, 1)
    | .ok img =>
      let r := downloadPagesGo fetch (i + 1) n
      (r.1.map (fun imgs => img :: imgs), r.2 + 1)

/-- Embeds DownloadPagesInBatch (client.go) over n pages. -/
def DownloadPagesInBatch (fetch : Nat → Except String (List Nat)) (n : Nat) :
    Except String (List (List Nat)) × Nat :=
  downloadPagesGo fetch 0 n

/-- The CBZ write step of the downloadChapter switch. In Go the CBZ case
clause declares a new err with a short variable declaration
(comicInfo, err := generateComicInfo), so the following assignment
err = SaveCBZ targets that shadowed variable: the SaveCBZ error never
reaches the err checked after the switch, and a failed CBZ write is
reported as success, leaving the partially written file behind. -/
def saveCBZStep (env : DownloadEnv) (options : DownloadOptions) (fs : FS)
    (path : String) (pages : List String) (images : List (List Nat))
    (cnt : Nat) (ci : ComicInfoXml) : Except String Unit × FS × Nat :=
  match env.saveCBZResult with
  | .error _ => (.ok (), fs.createFile path (.bytes []), cnt)
  | .ok _ =>
    (.ok (), fs.createFile path
      (.cbzArchive (SaveCBZ (pages.zip images) ci options.comicInfoOptions)), cnt)

/-- The images-directory write step of the downloadChapter switch
(SaveImages): the directory is created and each page is written under the
zero-padded sequential name. -/
def saveImagesStep (fs : FS) (path : String) (pages : List String)
    (images : List (List Nat)) : FS :=
  ((pages.zip images).enum).foldl
    (fun acc p => acc.createFile (joinPath path (pad4 (p.1 + 1) ++ p.2.1))
      (.bytes p.2.2))
    (fs.mkdirAll path)

/-- Embeds downloadChapter (client.go), the helper of DownloadChapter:
fetch the page list, download all pages fail-fast, then encode according to
the format switch. The PDF and images cases assign their error to the outer
err checked after the switch; the CBZ case first obtains the ComicInfo
record (fatal only under Strict), then performs the archive write whose
error is lost to variable shadowing (see saveCBZStep); formats without a
case leave err nil. -/
def downloadChapter (env : DownloadEnv) (options : DownloadOptions) (fs : FS)
    (path : String) : Except String Unit × FS × Nat :=
  match env.chapterPages with
  | .error e => (.error e, fs, 0)
  | .ok pages =>
    match DownloadPagesInBatch env.fetchPage pages.length with
    | (.error e, cnt) => (.error e, fs, cnt)
    | (.ok images, cnt) =>
      match options.format with
      | .pdf =>
        match env.savePDF with
        | .error e => (.error e, fs.createFile path (.bytes []), cnt)
        | .ok doc => (.ok (), fs.createFile path (.bytes doc), cnt)
      | .cbz =>
        match env.comicInfo with
        | .error e =>
          if options.strict then (.error e, fs, cnt)
          else saveCBZStep env options fs path pages images cnt .zero
        | .ok ci => saveCBZStep env options fs path pages images cnt ci
      | .images => (.ok (), saveImagesStep fs path pages images, cnt)
      | _ => (.ok (), fs, cnt)

/-- Embeds writeSeriesJson (client.go): skipped when the file exists,
otherwise the generated document is written. -/
def writeSeriesJson (env : DownloadEnv) (fs : FS) (dir : String) :
    Except String Unit × FS :=
  let p := joinPath dir seriesJsonFilename
  if fs.pathExists p then (.ok (), fs)
  else
    match env.seriesJson with
    | .error e => (.error e, fs)
    | .ok bs => (.ok (), fs.createFile p (.bytes bs))

/-- Embeds downloadCover (client.go): skipped when the file exists,
otherwise the downloaded bytes are written. -/
def downloadCover (env : DownloadEnv) (fs : FS) (dir : String) :
    Except String Unit × FS :=
  let p := joinPath dir coverJpgFilename
  if fs.pathExists p then (.ok (), fs)
  else
    match env.cover with
    | .error e => (.error e, fs)
    | .ok bs => (.ok (), fs.createFile p (.bytes bs))

/-- An auxiliary step error aborts only under Strict (client.go:
if err != nil and options.Strict). -/
def gateStrict (strict : Bool) : Except String Unit × FS → Option String × FS
  | (.error e, fs) => (if strict then some e else none, fs)
  | (.ok _, fs) => (none, fs)

/-- Embeds DownloadChapter (client.go): assemble the directory from the
naming flags, create it, detect an existing chapter; with SkipIfExists the
bare chapter file name is returned at once (the success path below returns
the joined chapter path instead). Otherwise the chapter is downloaded into
a fresh temporary directory, the pre-existing chapter is removed, the
auxiliary series.json and cover steps run (fatal only under Strict), and the
temporary artifact is renamed to its destination, whose path is returned.
The Nat component counts page fetches. -/
def DownloadChapter (env : DownloadEnv) (filenames : Filenames)
    (options : DownloadOptions) (fs : FS) (dir tempDir : String) :
    Except String String × FS × Nat :=
  let dir := if options.createMangaDir then joinPath dir filenames.manga else dir
  let dir := if options.createVolumeDir then joinPath dir filenames.volume else dir
  let fs := fs.mkdirAll dir
  let chapterPath := joinPath dir filenames.chapter
  let chapterExists := fs.pathExists chapterPath
  if chapterExists && options.skipIfExists then
    (.ok filenames.chapter, fs, 0)
  else
    let fs := fs.mkdirAll tempDir
    let chapterTempPath := joinPath tempDir filenames.chapter
    match downloadChapter env options fs chapterTempPath with
    | (.error e, fs1, cnt) => (.error e, fs1, cnt)
    | (.ok _, fs1, cnt) =>
      let fs2 := if chapterExists then fs1.removeAll chapterPath else fs1
      match gateStrict options.strict
          (if options.writeSeriesJson then writeSeriesJson env fs2 dir
           else (.ok (), fs2)) with
      | (some e, fs3) => (.error e, fs3, cnt)
      | (none, fs3) =>
        match gateStrict options.strict
            (if options.downloadMangaCover then downloadCover env fs3 dir
             else (.ok (), fs3)) with
        | (some e, fs4) => (.error e, fs4, cnt)
        | (none, fs4) =>
          (.ok chapterPath, fs4.rename chapterTempPath chapterPath, cnt)

/-- The empty filesystem. -/
def fsEmpty : FS := ⟨[], []⟩

/-- Sample computed path components. -/
def fnSample : Filenames := ⟨"m", "v", "ch1.cbz"⟩

/-- CBZ download options with every optional behaviour off. -/
def optsPlain : DownloadOptions :=
  ⟨.cbz, false, false, false, false, false, false, ⟨false, none⟩⟩

/-- CBZ download options with SkipIfExists on. -/
def optsSkip : DownloadOptions :=
  ⟨.cbz, false, false, true, false, false, false, ⟨false, none⟩⟩

/-- Environment with three pages whose middle page fetch fails. -/
def envPageFail : DownloadEnv where
  chapterPages := .ok [".jpg", ".jpg", ".jpg"]
  fetchPage := fun i => if i = 1 then .error "page fetch failed" else .ok [7]
  comicInfo := .ok .zero
  savePDF := .ok []
  saveCBZResult := .ok ()
  seriesJson := .ok []
  cover := .ok []

/-- Environment with one page and a failing zip write inside SaveCBZ. -/
def envCbzWriteFail : DownloadEnv where
  chapterPages := .ok [".jpg"]
  fetchPage := fun _ => .ok [7]
  comicInfo := .ok .zero
  savePDF := .ok []
  saveCBZResult := .error "zip: write failed"
  seriesJson := .ok []
  cover := .ok []

/-- Environment with one page and every external step succeeding. -/
def envOnePage : DownloadEnv where
  chapterPages := .ok [".jpg"]
  fetchPage := fun _ => .ok [7]
  comicInfo := .ok .zero
  savePDF := .ok []
  saveCBZResult := .ok ()
  seriesJson := .ok []
  cover := .ok []

/-!
## Staged download and merge (unnamed snapshot: DownloadChapter with an
in-memory staging filesystem, and mergeDirectories)

In this snapshot DownloadChapter clones the client, swaps its filesystem for
a fresh in-memory one private to the invocation, runs the whole chapter
download with metadata against that staging filesystem (the destination is
readable only through an exists predicate), and finally merges the staged
tree into the destination filesystem with mergeDirectories. Filesystems are
modelled as trees: a directory is an association list from names to entries.
-/

/-- A filesystem tree entry: a file with its byte content, or a directory
with its named children. -/
inductive FsEntry where
  | file (content : List Nat)
  | dir (entries : List (String × FsEntry))

/-- The child directory listing at a name: the destination side of the
recursive merge descends into the directory of that name, and a missing or
non-directory destination behaves as empty (name collisions between a file
and a directory are excluded by compatB in the theorems; on a real
filesystem they make mergeDirectories fail). -/
def getDir (l : List (String × FsEntry)) (n : String) :
    List (String × FsEntry) :=
  match alookup l n with
  | some (.dir d) => d
  | _ => []

/-- Embeds mergeDirectories (of the staged snapshot): iterate over the
source directory entries; a subdirectory is merged recursively into the
destination entry of the same name; a file is copied, overwriting any
pre-existing destination file of that name. -/
def mergeDirectories :
    List (String × FsEntry) → List (String × FsEntry) → List (String × FsEntry)
  | dst, [] => dst
  | dst, (name, e) :: rest =>
    let dst1 :=
      match e with
      | .file c => aset dst name (.file c)
      | .dir d => aset dst name (.dir (mergeDirectories (getDir dst name) d))
    mergeDirectories dst1 rest
termination_by _ src => sizeOf src

/-- The file content found at a path of the tree, when the path leads
through directories to a file. -/
def fileAt : List (String × FsEntry) → List String → Option (List Nat)
  | _, [] => none
  | l, [n] =>
    match alookup l n with
    | some (.file c) => some c
    | _ => none
  | l, n :: rest =>
    match alookup l n with
    | some (.dir d) => fileAt d rest
    | _ => none

/-- Well-formedness of a directory tree: names are unique in every listing,
as ReadDir guarantees for a real directory. -/
def wfDir : List (String × FsEntry) → Bool
  | [] => true
  | (n, .file _) :: rest => !((rest.map Prod.fst).contains n) && wfDir rest
  | (n, .dir d) :: rest =>
    !((rest.map Prod.fst).contains n) && wfDir d && wfDir rest

mutual

/-- Compatibility of destination and source trees: no name is a file on one
side and a directory on the other, recursively. On such a collision the real
mergeDirectories errors out of MkdirAll or Remove instead. -/
def compatB :
    List (String × FsEntry) → List (String × FsEntry) → Bool
  | _, [] => true
  | dst, (n, e) :: rest =>
    entryCompat (alookup dst n) e && compatB dst rest

/-- Compatibility of one source entry with the destination entry of the
same name, when present. -/
def entryCompat : Option FsEntry → FsEntry → Bool
  | none, _ => true
  | some (.file _), .file _ => true
  | some (.file _), .dir _ => false
  | some (.dir _), .file _ => false
  | some (.dir d1), .dir d2 => compatB d1 d2

end

/-- The read-only view DownloadChapter grants the staged computation on the
caller's filesystem: afero.Exists on the destination. -/
def existsOracle (realTree : List (String × FsEntry)) : List String → Bool :=
  fun p => (fileAt realTree p).isSome

/-- Embeds the staged DownloadChapter (with downloadChapterWithMetadata
modelled from the spec, which is the only part absent from the sources: all
its primary and auxiliary writes target the private in-memory staging
filesystem, never the caller's, and it reads the destination only through
the exists predicate; it is therefore an arbitrary function from that
oracle to an error or a staged tree plus the returned chapter path). On an
error the staged tree is discarded and the caller's filesystem is returned
untouched; on success the staged tree is merged into it. -/
def DownloadChapterStaged (realTree : List (String × FsEntry))
    (stage : (List String → Bool) →
      Except String (List (String × FsEntry) × String)) :
    Except String String × List (String × FsEntry) :=
  match stage (existsOracle realTree) with
  | .error e => (.error e, realTree)
  | .ok (staged, path) => (.ok path, mergeDirectories realTree staged)

/-- A sample destination tree with one output directory holding two files. -/
def realSample : List (String × FsEntry) :=
  [("out", .dir [("old.txt", .file [1]), ("ch2.cbz", .file [9])])]

/-- A sample staged tree: a fresh chapter plus an overwrite of ch2.cbz. -/
def stagedSample : List (String × FsEntry) :=
  [("out", .dir [("ch1.cbz", .file [7]), ("ch2.cbz", .file [8])])]

/-- A sample staged computation producing stagedSample. -/
def stageSample : (List String → Bool) →
    Except String (List (String × FsEntry) × String) :=
  fun _ => .ok (stagedSample, "out/ch1.cbz")

theorem alookup_aset_self {α β : Type} [DecidableEq α]
    (l : List (α × β)) (k : α) (v : β) :
    alookup (aset l k v) k = some v := by
  induction l with
  | nil => simp [aset, alookup]
  | cons hd tl ih =>
    obtain ⟨k', v'⟩ := hd
    by_cases h : k' = k
    · simp [aset, h, alookup]
    · simp [aset, h, alookup, ih]

theorem alookup_aset_ne {α β : Type} [DecidableEq α]
    (l : List (α × β)) (k k' : α) (v : β) (h : k ≠ k') :
    alookup (aset l k v) k' = alookup l k' := by
  induction l with
  | nil => simp [aset, alookup, h]
  | cons hd tl ih =>
    obtain ⟨k0, v0⟩ := hd
    by_cases h0 : k0 = k
    · subst h0
      simp [aset, alookup, h]
    · simp only [aset, if_neg h0, alookup]
      by_cases h1 : k0 = k'
      · simp [h1]
      · simp [h1, ih]

/-- C6 counterexample: a 429 response whose rate-limit header is present but
unparseable ("many") followed by a successful response. The claim says the
client waits the default 90 seconds and retransmits; the code instead returns
the strconv.Atoi parse error to the caller, performing no sleep and no
retransmission (the scripted 200 response is never consumed). -/
theorem sendRequest_unparseable_header_errors :
    sendRequest
      [⟨429, "many", "429 Too Many Requests", none, 0⟩,
       ⟨200, "", "200 OK", none, 7⟩]
      = .err [] "strconv.Atoi: parsing many" := by
  decide

/-- C6 amended: on a 429 response the client waits the default 90 seconds and
retransmits only when the rate-limit header is absent; when the header is
present but unparseable, sendRequest surfaces the strconv.Atoi parse error to
the caller without sleeping or retransmitting. -/
theorem sendRequest_rate_limit_behaviour
    (r : RlResponse) (rest : List RlResponse)
    (h429 : r.status = 429) :
    (r.rateLimitHeader = "" →
      sendRequest (r :: rest) = prependSleep 90 (sendRequest rest)) ∧
    (r.rateLimitHeader ≠ "" → atoi? r.rateLimitHeader = none →
      sendRequest (r :: rest)
        = .err [] ("strconv.Atoi: parsing " ++ r.rateLimitHeader)) := by
  have h90 : atoi? "90" = some 90 := by decide
  constructor
  · intro habsent
    simp [sendRequest, h429, habsent, h90]
  · intro hpresent hbad
    simp [sendRequest, h429, if_neg hpresent, hbad]

/-- C6 amended witness: concrete instantiation of both conjuncts. -/
theorem sendRequest_rate_limit_behaviour_witness :
    sendRequest
        [⟨429, "", "429 Too Many Requests", none, 7⟩, ⟨200, "", "200 OK", none, 7⟩]
      = .ok [90] 7 ∧
    sendRequest [⟨429, "oops", "429 Too Many Requests", none, 0⟩]
      = .err [] "strconv.Atoi: parsing oops" := by
  have h := sendRequest_rate_limit_behaviour
    ⟨429, "", "429 Too Many Requests", none, 7⟩
    [⟨200, "", "200 OK", none, 7⟩] rfl
  have h2 := sendRequest_rate_limit_behaviour
    ⟨429, "oops", "429 Too Many Requests", none, 0⟩ [] rfl
  refine ⟨?_, ?_⟩
  · rw [h.1 rfl]
    decide
  · exact h2.2 (by decide) (by decide)

/-- Fuel-indexed bound on the truncation-retry loop: the list of titles
passed to the search function has at most limit - tryIdx elements, and all
of them are non-empty whenever the starting title is non-empty and the step
is positive. -/
theorem findClosestManga_queries_aux (n : Nat) :
    ∀ (env : AnilistEnv) (st : AnilistState) (t : Str) (step tryIdx limit : Nat),
      limit - tryIdx ≤ n →
      ((findClosestManga env st t step tryIdx limit).2.2).length ≤ limit - tryIdx ∧
      (t ≠ [] → 1 ≤ step →
        ∀ q ∈ (findClosestManga env st t step tryIdx limit).2.2, q ≠ []) := by
  induction n with
  | zero =>
    intro env st t step tryIdx limit hfuel
    have hle : limit ≤ tryIdx := by omega
    rw [findClosestManga]
    simp [hle]
  | succ n ih =>
    intro env st t step tryIdx limit hfuel
    by_cases hle : limit ≤ tryIdx
    · rw [findClosestManga]
      simp [hle]
    · have hlt : tryIdx < limit := by omega
      have h1 : 1 ≤ limit - tryIdx := by omega
      rw [findClosestManga]
      simp only [hle, dite_false]
      match hsearch : SearchMangas env st t with
      | (.error e, st1, k) =>
        refine ⟨by simpa using h1, ?_⟩
        intro ht _ q hq
        simp at hq
        simpa [hq] using ht
      | (.ok mangas, st1, k) =>
        by_cases hemp : mangas.isEmpty
        · simp only [hemp, if_true]
          by_cases hstep : step < t.length
          · simp only [hstep, if_true]
            have hrec := ih env st1 (t.take (t.length - step)) step (tryIdx + 1) limit
              (by omega)
            refine ⟨?_, ?_⟩
            · simp only [List.length_cons]
              omega
            · intro ht hstep1 q hq
              simp only [List.mem_cons] at hq
              rcases hq with rfl | hq
              · exact ht
              · refine hrec.2 ?_ hstep1 q hq
                have : t.length - step ≠ 0 := by omega
                simp [List.take_eq_nil_iff]
                exact ⟨this, ht⟩
          · simp only [hstep, if_false]
            by_cases hone : 1 < t.length
            · simp only [hone, if_true]
              have hrec := ih env st1 (t.take (t.length - 1)) step (tryIdx + 1) limit
                (by omega)
              refine ⟨?_, ?_⟩
              · simp only [List.length_cons]
                omega
              · intro ht hstep1 q hq
                simp only [List.mem_cons] at hq
                rcases hq with rfl | hq
                · exact ht
                · refine hrec.2 ?_ hstep1 q hq
                  have : t.length - 1 ≠ 0 := by omega
                  simp [List.take_eq_nil_iff]
                  exact ⟨this, ht⟩
            · simp only [hone, if_false]
              refine ⟨by simpa using h1, ?_⟩
              intro ht _ q hq
              simp at hq
              simpa [hq] using ht
        · simp only [hemp, if_false]
          match env.getClosestManga t mangas with
          | none =>
            refine ⟨by simpa using h1, ?_⟩
            intro ht _ q hq
            simp at hq
            simpa [hq] using ht
          | some closest =>
            refine ⟨by simpa using h1, ?_⟩
            intro ht _ q hq
            simp at hq
            simpa [hq] using ht

/-- C3: for every non-empty title and every step at least 1, the
truncation-retry loop of the resolver (findClosestManga with the default
try counter 0 and attempt limit 3, total by construction, hence
terminating) invokes the search function at most 3 times and never passes
it an empty title string. -/
theorem findClosestManga_bounded_nonempty
    (env : AnilistEnv) (st : AnilistState) (t : Str) (step : Nat)
    (ht : t ≠ []) (hstep : 1 ≤ step) :
    ((findClosestManga env st t step 0 3).2.2).length ≤ 3 ∧
    ∀ q ∈ (findClosestManga env st t step 0 3).2.2, q ≠ [] := by
  have h := findClosestManga_queries_aux 3 env st t step 0 3 (by omega)
  exact ⟨h.1, h.2 ht hstep⟩

/-- C3 witness: the bound instantiated at a concrete two-character title
with step 3 against the no-result environment. -/
theorem findClosestManga_bounded_nonempty_witness :
    ((findClosestManga envNoResults emptyAnilistState
        [Char.ofNat 97, Char.ofNat 98] 3 0 3).2.2).length ≤ 3 ∧
    ∀ q ∈ (findClosestManga envNoResults emptyAnilistState
        [Char.ofNat 97, Char.ofNat 98] 3 0 3).2.2, q ≠ [] :=
  findClosestManga_bounded_nonempty envNoResults emptyAnilistState
    [Char.ofNat 97, Char.ofNat 98] 3 (by decide) (by decide)

/-- C4: exercising FindClosestManga on a one-character title against a
catalog with no matches. The truncation-retry loop exhausts and yields no
record, so the Go code reaches cacheSetTitle(title, manga.ID) with manga the
nil pointer: evaluating manga.ID panics. The claim says the call returns
found=false with a nil error, leaving cache-2 unchanged; instead the run
panics (cache-2 is indeed left unchanged, because the panic precedes the
write). -/
theorem findClosestManga_exhaustion_panics :
    (FindClosestManga envNoResults emptyAnilistState [Char.ofNat 120]).1
      = .nilPanic ∧
    (FindClosestManga envNoResults emptyAnilistState [Char.ofNat 120]).2.titleToId
      = [] := by
  have hsearch : SearchMangas envNoResults ⟨[], [], []⟩ [Char.ofNat 120]
      = (.ok [], ⟨[([Char.ofNat 120], [])], [], []⟩, 1) := by rfl
  have hloop : findClosestManga envNoResults ⟨[], [], []⟩ [Char.ofNat 120] 3 0 3
      = (.ok none, ⟨[([Char.ofNat 120], [])], [], []⟩, [[Char.ofNat 120]]) := by
    rw [findClosestManga]
    simp [hsearch]
  have huni : unifyString [Char.ofNat 120] = [Char.ofNat 120] := by decide
  have hmain : FindClosestManga envNoResults emptyAnilistState [Char.ofNat 120]
      = (.nilPanic, ⟨[([Char.ofNat 120], [])], [], []⟩) := by
    simp [FindClosestManga, huni, emptyAnilistState, alookup,
      findClosestMangaUncached, hloop]
  rw [hmain]
  exact ⟨rfl, rfl⟩

/-- C7: a fresh network search that legitimately returns zero results caches
the empty id list, and the immediately following SearchMangas call for the
same query returns the empty result set from the cache with zero network
calls and an unchanged state. -/
theorem searchMangas_negative_caching
    (env : AnilistEnv) (st : AnilistState) (q : Str)
    (hmiss : alookup st.queryToIds (unifyString q) = none)
    (hnet : env.searchNet (unifyString q) = .ok [])
    (hset : env.setQueryFails (unifyString q) = false) :
    (SearchMangas env st q).1 = .ok [] ∧
    SearchMangas env (SearchMangas env st q).2.1 q
      = (.ok [], (SearchMangas env st q).2.1, 0) := by
  have hfirst : SearchMangas env st q
      = (.ok [], { st with queryToIds := aset st.queryToIds (unifyString q) [] }, 1) := by
    simp [SearchMangas, hmiss, hnet, hset, setIdAll]
  refine ⟨by rw [hfirst], ?_⟩
  rw [hfirst]
  simp [SearchMangas, alookup_aset_self, resolveIds]

/-- C7 witness: concrete zero-result search on an empty cache state. -/
theorem searchMangas_negative_caching_witness :
    (SearchMangas envNoResults emptyAnilistState [Char.ofNat 97]).1 = .ok [] ∧
    SearchMangas envNoResults
        (SearchMangas envNoResults emptyAnilistState [Char.ofNat 97]).2.1
        [Char.ofNat 97]
      = (.ok [],
         (SearchMangas envNoResults emptyAnilistState [Char.ofNat 97]).2.1, 0) :=
  searchMangas_negative_caching envNoResults emptyAnilistState [Char.ofNat 97]
    (by rfl) (by rfl) (by rfl)

/-- Successful run of the fresh-search record-caching loop: all ids are
collected in order, only cache-3 is touched, previously present records are
preserved, and every processed record is retrievable afterwards. -/
theorem setIdAll_ok (env : AnilistEnv) (ms : List AnilistManga) :
    ∀ st : AnilistState, (∀ m ∈ ms, env.setIdFails m.id = false) →
    ∃ st2, setIdAll env st ms = (.ok (ms.map (fun m => m.id)), st2) ∧
      st2.queryToIds = st.queryToIds ∧
      st2.titleToId = st.titleToId ∧
      (∀ k, (alookup st.idToManga k).isSome = true →
        (alookup st2.idToManga k).isSome = true) ∧
      (∀ m ∈ ms, (alookup st2.idToManga m.id).isSome = true) := by
  induction ms with
  | nil =>
    intro st _
    exact ⟨st, rfl, rfl, rfl, fun _ h => h, by simp⟩
  | cons m rest ih =>
    intro st h
    have hm : env.setIdFails m.id = false := h m (by simp)
    have hrest : ∀ m2 ∈ rest, env.setIdFails m2.id = false :=
      fun m2 hm2 => h m2 (by simp [hm2])
    obtain ⟨st2, heq, hq, ht, hmono, hmem⟩ :=
      ih { st with idToManga := aset st.idToManga m.id m } hrest
    refine ⟨st2, by simp [setIdAll, hm, heq], hq, ht, ?_, ?_⟩
    · intro k hk
      apply hmono
      by_cases hkm : m.id = k
      · subst hkm
        simp [alookup_aset_self]
      · simpa [alookup_aset_ne st.idToManga m.id k m hkm] using hk
    · intro m2 hm2
      rcases List.mem_cons.mp hm2 with rfl | hm2
      · apply hmono
        simp [alookup_aset_self]
      · exact hmem m2 hm2

/-- Failing run of the fresh-search record-caching loop: the first failing
cacheSetId write aborts, leaving cache-1 and cache-2 untouched. -/
theorem setIdAll_err (env : AnilistEnv) (ms : List AnilistManga) :
    ∀ st : AnilistState, (∃ m ∈ ms, env.setIdFails m.id = true) →
    ∃ e st2, setIdAll env st ms = (.error e, st2) ∧
      st2.queryToIds = st.queryToIds ∧ st2.titleToId = st.titleToId := by
  induction ms with
  | nil =>
    intro st h
    simp at h
  | cons m rest ih =>
    intro st h
    by_cases hm : env.setIdFails m.id = true
    · exact ⟨"cache set id failed", st, by simp [setIdAll, hm], rfl, rfl⟩
    · rw [Bool.not_eq_true] at hm
      obtain ⟨m2, hmem, hfail⟩ := h
      rcases List.mem_cons.mp hmem with rfl | hmem2
      · rw [hm] at hfail
        exact absurd hfail (by simp)
      · obtain ⟨e, st2, heq, hq, ht⟩ :=
          ih { st with idToManga := aset st.idToManga m.id m } ⟨m2, hmem2, hfail⟩
        exact ⟨e, st2, by simp [setIdAll, hm, heq], hq, ht⟩

/-- C10: on a fresh network search, SearchMangas writes every returned
record into cache-3 before writing the query entry into cache-1, and a
failing record write aborts with the query entry unwritten; consequently
every id in a freshly created query entry has a retrievable record in
cache-3. -/
theorem searchMangas_setId_before_setQuery
    (env : AnilistEnv) (st : AnilistState) (q : Str) (mangas : List AnilistManga)
    (hmiss : alookup st.queryToIds (unifyString q) = none)
    (hnet : env.searchNet (unifyString q) = .ok mangas) :
    ((∀ m ∈ mangas, env.setIdFails m.id = false) →
      env.setQueryFails (unifyString q) = false →
      ∃ st2, SearchMangas env st q = (.ok mangas, st2, 1) ∧
        alookup st2.queryToIds (unifyString q)
          = some (mangas.map (fun m => m.id)) ∧
        ∀ id ∈ mangas.map (fun m => m.id),
          (alookup st2.idToManga id).isSome = true) ∧
    ((∃ m ∈ mangas, env.setIdFails m.id = true) →
      ∃ e st2, SearchMangas env st q = (.error e, st2, 1) ∧
        st2.queryToIds = st.queryToIds) := by
  constructor
  · intro hok hsq
    obtain ⟨st2, heq, hq, _, _, hmem⟩ := setIdAll_ok env mangas st hok
    refine ⟨{ st2 with
        queryToIds := aset st2.queryToIds (unifyString q)
          (mangas.map (fun m => m.id)) }, ?_, ?_, ?_⟩
    · simp [SearchMangas, hmiss, hnet, heq, hsq]
    · simp [alookup_aset_self]
    · intro id hid
      simp only [List.mem_map] at hid
      obtain ⟨m, hmm, rfl⟩ := hid
      simpa using hmem m hmm
  · intro hbad
    obtain ⟨e, st2, heq, hq, _⟩ := setIdAll_err env mangas st hbad
    exact ⟨e, st2, by simp [SearchMangas, hmiss, hnet, heq], hq⟩

/-- C10 witness: concrete fresh search caching one record. -/
theorem searchMangas_setId_before_setQuery_witness :
    ∃ st2, SearchMangas envOneResult emptyAnilistState [Char.ofNat 97]
        = (.ok [⟨5, [Char.ofNat 116]⟩], st2, 1) ∧
      alookup st2.queryToIds (unifyString [Char.ofNat 97]) = some [5] ∧
      ∀ id ∈ [(5 : Int)], (alookup st2.idToManga id).isSome = true := by
  have h := (searchMangas_setId_before_setQuery envOneResult emptyAnilistState
    [Char.ofNat 97] [⟨5, [Char.ofNat 116]⟩] (by rfl) (by rfl)).1
    (by simp [envOneResult]) (by rfl)
  simpa using h

/-- C9: for every list of M downloaded pages and every input record, SaveCBZ
produces an archive with exactly M page entries, the i-th stored uncompressed
under the 4-digit zero-padded 1-based sequential name carrying that page's
extension, plus exactly one metadata entry, stored uncompressed under the
fixed reserved name as the last entry, whose page-count field equals M no
matter what page count the input record supplied. -/
theorem SaveCBZ_archive_shape
    (pages : List (String × List Nat)) (ci : ComicInfoXml)
    (opts : ComicInfoOptions) :
    ((SaveCBZ pages ci opts).filter isImageEntry).length = pages.length ∧
    (∀ i, (h : i < pages.length) →
      (SaveCBZ pages ci opts)[i]? = some
        { name := pad4 (i + 1) ++ (pages.get ⟨i, h⟩).1
          method := .store
          data := .image (pages.get ⟨i, h⟩).2 }) ∧
    ((SaveCBZ pages ci opts).filter isMetadataEntry).length = 1 ∧
    (∃ w, (SaveCBZ pages ci opts).getLast? = some
        { name := comicInfoXmlFilename, method := .store, data := .comicInfo w } ∧
      w.record.pageCount = pages.length) := by
  refine ⟨?_, ?_, ?_, ?_⟩
  · simp [SaveCBZ, List.filter_append, List.filter_map, isImageEntry,
      isMetadataEntry, Function.comp_def]
  · intro i h
    have hlen : i < (pages.enum.map (fun p : Nat × String × List Nat =>
        ({ name := pad4 (p.1 + 1) ++ p.2.1
           method := .store
           data := .image p.2.2 } : ZipEntry))).length := by
      simpa using h
    rw [SaveCBZ, List.getElem?_append_left hlen]
    simp [List.getElem?_map, List.getElem?_enum, h, List.getElem?_eq_getElem,
      List.get_eq_getElem]
  · simp [SaveCBZ, List.filter_append, List.filter_map, isImageEntry,
      isMetadataEntry, Function.comp_def]
  · refine ⟨{ ci.wrapper opts with
        record := { (ci.wrapper opts).record with
          pageCount := (pages.length : Int) } }, ?_, rfl⟩
    simp [SaveCBZ]

/-- C9 witness: a two-page archive built from a record claiming 99 pages. -/
theorem SaveCBZ_archive_shape_witness :
    ((SaveCBZ [(".jpg", [1]), (".png", [2, 3])] ciSample optsSample).filter
      isImageEntry).length = 2 ∧
    (SaveCBZ [(".jpg", [1]), (".png", [2, 3])] ciSample optsSample)[0]?
      = some { name := "0001.jpg", method := .store, data := .image [1] } ∧
    ((SaveCBZ [(".jpg", [1]), (".png", [2, 3])] ciSample optsSample).filter
      isMetadataEntry).length = 1 ∧
    (∃ w, (SaveCBZ [(".jpg", [1]), (".png", [2, 3])]
        ciSample optsSample).getLast?
        = some { name := comicInfoXmlFilename, method := .store,
                 data := .comicInfo w } ∧
      w.record.pageCount = 2) := by
  have h := SaveCBZ_archive_shape [(".jpg", [1]), (".png", [2, 3])]
    ciSample optsSample
  refine ⟨h.1, ?_, h.2.2.1, ?_⟩
  · have h0 := h.2.1 0 (by decide)
    rw [h0]
    decide
  · obtain ⟨w, hw, hpc⟩ := h.2.2.2
    exact ⟨w, hw, by simpa using hpc⟩

/-- Serialized fan-out hits the failing page first among the indices it
visits: when page k fails and every other page succeeds, the batch over any
window containing k returns exactly the error of page k. -/
theorem downloadPagesGo_err (fetch : Nat → Except String (List Nat))
    (k : Nat) (e : String)
    (hfail : fetch k = .error e)
    (hok : ∀ j, j ≠ k → ∃ img, fetch j = .ok img) :
    ∀ n start, start ≤ k → k < start + n →
      ∃ c, downloadPagesGo fetch start n = (.error e, c) := by
  intro n
  induction n with
  | zero =>
    intro start h1 h2
    omega
  | succ n ih =>
    intro start h1 h2
    by_cases hsk : start = k
    · subst hsk
      exact ⟨1, by simp [downloadPagesGo, hfail]⟩
    · obtain ⟨img, himg⟩ := hok start hsk
      obtain ⟨c, hc⟩ := ih (start + 1) (by omega) (by omega)
      exact ⟨c + 1, by simp [downloadPagesGo, himg, hc, Except.map]⟩

/-- C2: when the download of page k fails while every other page download
succeeds (and the skip-if-exists early return does not preempt the
download), DownloadChapter returns exactly that page error and writes no
file whatsoever: the destination filesystem keeps its file map, so in
particular no primary artifact appears and the partially downloaded pages
are discarded. -/
theorem downloadChapter_fanout_fail_fast
    (env : DownloadEnv) (filenames : Filenames) (options : DownloadOptions)
    (fs : FS) (dir tempDir : String) (pages : List String) (k : Nat) (e : String)
    (hpages : env.chapterPages = .ok pages)
    (_hN : 1 < pages.length)
    (hk : k < pages.length)
    (hfail : env.fetchPage k = .error e)
    (hok : ∀ j, j ≠ k → ∃ img, env.fetchPage j = .ok img)
    (hskip : options.skipIfExists = false) :
    (DownloadChapter env filenames options fs dir tempDir).1 = .error e ∧
    (DownloadChapter env filenames options fs dir tempDir).2.1.files = fs.files := by
  obtain ⟨c, hc⟩ :=
    downloadPagesGo_err env.fetchPage k e hfail hok pages.length 0
      (by omega) (by omega)
  have hdl : ∀ (fs2 : FS) (path : String),
      downloadChapter env options fs2 path = (.error e, fs2, c) := by
    intro fs2 path
    simp [downloadChapter, hpages, DownloadPagesInBatch, hc]
  constructor <;> simp [DownloadChapter, hskip, hdl, FS.mkdirAll]

/-- C2 witness: three pages with the middle page failing, on an empty
destination. -/
theorem downloadChapter_fanout_fail_fast_witness :
    (DownloadChapter envPageFail fnSample optsPlain fsEmpty "library" "tmp0").1
      = .error "page fetch failed" ∧
    (DownloadChapter envPageFail fnSample optsPlain fsEmpty
        "library" "tmp0").2.1.files = fsEmpty.files :=
  downloadChapter_fanout_fail_fast envPageFail fnSample optsPlain fsEmpty
    "library" "tmp0" [".jpg", ".jpg", ".jpg"] 1 "page fetch failed"
    rfl (by decide) (by decide) rfl
    (fun j hj => ⟨[7], by simp [envPageFail, hj]⟩) rfl

/-- C5: evaluating the downloadChapter helper with the CBZ format when the
archive write inside SaveCBZ fails. The claim says an encoder failure always
aborts DownloadChapter with an error; because the CBZ case clause shadows
the err variable (comicInfo, err := generateComicInfo followed by
err = SaveCBZ), the write error is lost and the helper reports success. -/
theorem downloadChapter_cbz_error_swallowed :
    envCbzWriteFail.saveCBZResult = .error "zip: write failed" ∧
    (downloadChapter envCbzWriteFail optsPlain fsEmpty "tmp0/ch1.cbz").1
      = .ok () := by
  exact ⟨rfl, rfl⟩

/-- C8: two DownloadChapter calls for the same chapter with SkipIfExists.
The first call fetches the single page (count 1), succeeds, and returns the
joined path library/ch1.cbz; the second call fetches nothing (count 0) but
returns the bare file name ch1.cbz from the skip branch, which differs from
the path the first call returned. The claim says both calls return the same
path. -/
theorem downloadChapter_skip_returns_bare_filename :
    (DownloadChapter envOnePage fnSample optsSkip fsEmpty "library" "tmp0").1
      = .ok "library/ch1.cbz" ∧
    (DownloadChapter envOnePage fnSample optsSkip fsEmpty "library" "tmp0").2.2
      = 1 ∧
    (DownloadChapter envOnePage fnSample optsSkip
        (DownloadChapter envOnePage fnSample optsSkip fsEmpty
          "library" "tmp0").2.1
        "library" "tmp1").1 = .ok "ch1.cbz" ∧
    (DownloadChapter envOnePage fnSample optsSkip
        (DownloadChapter envOnePage fnSample optsSkip fsEmpty
          "library" "tmp0").2.1
        "library" "tmp1").2.2 = 0 ∧
    ("library/ch1.cbz" : String) ≠ "ch1.cbz" := by
  refine ⟨rfl, rfl, rfl, rfl, by decide⟩

theorem alookup_cons_self {β : Type} (m : String) (v : β)
    (rest : List (String × β)) : alookup ((m, v) :: rest) m = some v := by
  simp [alookup]

theorem alookup_cons_ne {β : Type} (m n : String) (v : β)
    (rest : List (String × β)) (h : m ≠ n) :
    alookup ((m, v) :: rest) n = alookup rest n := by
  simp [alookup, h]

theorem getDir_eq_nil {l : List (String × FsEntry)} {n : String}
    (h : alookup l n = none) : getDir l n = [] := by
  unfold getDir
  rw [h]

theorem getDir_eq_of_dir {l : List (String × FsEntry)} {n : String}
    {d : List (String × FsEntry)} (h : alookup l n = some (.dir d)) :
    getDir l n = d := by
  unfold getDir
  rw [h]

theorem getDir_aset_ne (dst : List (String × FsEntry)) (m n : String)
    (v : FsEntry) (hm : m ≠ n) : getDir (aset dst m v) n = getDir dst n := by
  unfold getDir
  rw [alookup_aset_ne dst m n v hm]

theorem alookup_eq_none_of_keys {β : Type} (l : List (String × β)) (n : String)
    (h : (l.map Prod.fst).contains n = false) : alookup l n = none := by
  induction l with
  | nil => rfl
  | cons hd tl ih =>
    obtain ⟨m, v⟩ := hd
    simp only [List.map_cons, List.contains_cons, Bool.or_eq_false_iff,
      beq_eq_false_iff_ne] at h
    have hm : m ≠ n := fun hc => h.1 hc.symm
    simp [alookup, hm, ih h.2]

theorem wfDir_cons {n : String} {e : FsEntry} {rest : List (String × FsEntry)}
    (h : wfDir ((n, e) :: rest) = true) :
    (rest.map Prod.fst).contains n = false ∧ wfDir rest = true := by
  cases e with
  | file c =>
    rw [wfDir] at h
    simp only [Bool.and_eq_true, Bool.not_eq_true'] at h
    exact h
  | dir d =>
    rw [wfDir] at h
    simp only [Bool.and_eq_true, Bool.not_eq_true'] at h
    exact ⟨h.1.1, h.2⟩

theorem wfDir_lookup_dir {l : List (String × FsEntry)} {n : String}
    {d : List (String × FsEntry)}
    (hw : wfDir l = true) (hl : alookup l n = some (.dir d)) :
    wfDir d = true := by
  induction l with
  | nil => simp [alookup] at hl
  | cons hd rest ih =>
    obtain ⟨m, e⟩ := hd
    by_cases hm : m = n
    · subst hm
      rw [alookup_cons_self] at hl
      cases e with
      | file c => simp at hl
      | dir d2 =>
        simp only [Option.some.injEq, FsEntry.dir.injEq] at hl
        subst hl
        rw [wfDir] at hw
        simp only [Bool.and_eq_true] at hw
        exact hw.1.2
    · rw [alookup_cons_ne m n e rest hm] at hl
      exact ih (wfDir_cons hw).2 hl

/-- Lookup distributes over mergeDirectories when the source listing has
unique names: a source file wins, a source directory merges into the
destination child, and everything else is left to the destination. -/
theorem alookup_merge (src : List (String × FsEntry)) :
    ∀ (dst : List (String × FsEntry)) (n : String), wfDir src = true →
    alookup (mergeDirectories dst src) n =
      (match alookup src n with
       | none => alookup dst n
       | some (.file c) => some (.file c)
       | some (.dir d) => some (.dir (mergeDirectories (getDir dst n) d))) := by
  induction src with
  | nil =>
    intro dst n _
    simp [mergeDirectories, alookup]
  | cons hd rest ih =>
    intro dst n hw
    obtain ⟨m, e⟩ := hd
    obtain ⟨hkey, hrest⟩ := wfDir_cons hw
    by_cases hm : m = n
    · subst hm
      have hrn : alookup rest m = none := alookup_eq_none_of_keys rest m hkey
      cases e with
      | file c =>
        rw [mergeDirectories, ih (aset dst m (.file c)) m hrest]
        rw [alookup_cons_self, hrn, alookup_aset_self]
      | dir d =>
        rw [mergeDirectories,
          ih (aset dst m (.dir (mergeDirectories (getDir dst m) d))) m hrest]
        rw [alookup_cons_self, hrn, alookup_aset_self]
    · cases e with
      | file c =>
        rw [mergeDirectories, ih (aset dst m (.file c)) n hrest]
        rw [alookup_cons_ne m n _ rest hm, alookup_aset_ne dst m n _ hm,
          getDir_aset_ne dst m n _ hm]
      | dir d =>
        rw [mergeDirectories,
          ih (aset dst m (.dir (mergeDirectories (getDir dst m) d))) n hrest]
        rw [alookup_cons_ne m n _ rest hm, alookup_aset_ne dst m n _ hm,
          getDir_aset_ne dst m n _ hm]

theorem compatB_nil_left (src : List (String × FsEntry)) :
    compatB [] src = true := by
  induction src with
  | nil => rw [compatB]
  | cons hd rest ih =>
    obtain ⟨n, e⟩ := hd
    rw [compatB]
    have h0 : alookup ([] : List (String × FsEntry)) n = none := rfl
    rw [h0]
    cases e <;> simp [entryCompat, ih]

/-- A source directory entry is matched on the destination side by a
directory or by nothing, and the child listings are compatible. -/
theorem compatB_dir {dst src : List (String × FsEntry)} {n : String}
    {d2 : List (String × FsEntry)}
    (hc : compatB dst src = true) (hl : alookup src n = some (.dir d2)) :
    compatB (getDir dst n) d2 = true ∧
    ∀ c, alookup dst n ≠ some (.file c) := by
  induction src with
  | nil => simp [alookup] at hl
  | cons hd rest ih =>
    obtain ⟨m, e⟩ := hd
    rw [compatB, Bool.and_eq_true] at hc
    by_cases hm : m = n
    · subst hm
      rw [alookup_cons_self] at hl
      have he : e = .dir d2 := by injection hl
      subst he
      match hdst : alookup dst m with
      | none =>
        refine ⟨?_, ?_⟩
        · rw [getDir_eq_nil hdst]
          exact compatB_nil_left d2
        · intro c hfile
          exact Option.noConfusion hfile
      | some (.file c0) =>
        rw [hdst] at hc
        simp only [entryCompat] at hc
        exact absurd hc.1 Bool.false_ne_true
      | some (.dir d1) =>
        rw [hdst] at hc
        simp only [entryCompat] at hc
        refine ⟨?_, ?_⟩
        · rw [getDir_eq_of_dir hdst]
          exact hc.1
        · intro c hfile
          simp at hfile
    · rw [alookup_cons_ne m n e rest hm] at hl
      exact ih hc.2 hl

/-- A source file entry is matched on the destination side by a file or by
nothing, never by a directory. -/
theorem compatB_file {dst src : List (String × FsEntry)} {n : String}
    {c : List Nat}
    (hc : compatB dst src = true) (hl : alookup src n = some (.file c)) :
    ∀ d, alookup dst n ≠ some (.dir d) := by
  induction src with
  | nil => simp [alookup] at hl
  | cons hd rest ih =>
    obtain ⟨m, e⟩ := hd
    rw [compatB, Bool.and_eq_true] at hc
    by_cases hm : m = n
    · subst hm
      rw [alookup_cons_self] at hl
      have he : e = .file c := by injection hl
      subst he
      intro d hdir
      rw [hdir] at hc
      simp only [entryCompat] at hc
      exact absurd hc.1 Bool.false_ne_true
    · rw [alookup_cons_ne m n e rest hm] at hl
      exact ih hc.2 hl

theorem fileAt_nil (p : List String) : fileAt [] p = none := by
  match p with
  | [] => rfl
  | [n] => simp [fileAt, alookup]
  | n :: r :: rs => simp [fileAt, alookup]

/-- Merge correctness: at every path, the merged tree holds the staged file
when the staged tree has one there (overwriting the destination), and the
destination file otherwise. -/
theorem fileAt_merge :
    ∀ (p : List String) (dst src : List (String × FsEntry)),
    wfDir src = true → compatB dst src = true →
    fileAt (mergeDirectories dst src) p = (fileAt src p).or (fileAt dst p) := by
  intro p
  induction p with
  | nil =>
    intro dst src _ _
    simp [fileAt, Option.or]
  | cons n rest ih =>
    intro dst src hw hc
    cases rest with
    | nil =>
      rw [show fileAt (mergeDirectories dst src) [n]
          = (match alookup (mergeDirectories dst src) n with
             | some (.file c) => some c
             | _ => none) from rfl]
      rw [alookup_merge src dst n hw]
      match hsrc : alookup src n with
      | none =>
        match hdn : alookup dst n with
        | none => simp [fileAt, hsrc, hdn, Option.or]
        | some (.file c) => simp [fileAt, hsrc, hdn, Option.or]
        | some (.dir d1) => simp [fileAt, hsrc, hdn, Option.or]
      | some (.file c) =>
        simp [fileAt, hsrc, Option.or]
      | some (.dir d) =>
        have hdst := (compatB_dir hc hsrc).2
        match hdn : alookup dst n with
        | none => simp [fileAt, hsrc, hdn, Option.or]
        | some (.file c) => exact absurd hdn (hdst c)
        | some (.dir d1) => simp [fileAt, hsrc, hdn, Option.or]
    | cons r rs =>
      rw [show fileAt (mergeDirectories dst src) (n :: r :: rs)
          = (match alookup (mergeDirectories dst src) n with
             | some (.dir d) => fileAt d (r :: rs)
             | _ => none) from rfl]
      rw [alookup_merge src dst n hw]
      match hsrc : alookup src n with
      | none =>
        match hdn : alookup dst n with
        | none => simp [fileAt, hsrc, hdn, Option.or]
        | some (.file c) => simp [fileAt, hsrc, hdn, Option.or]
        | some (.dir d1) => simp [fileAt, hsrc, hdn, Option.or]
      | some (.file c) =>
        have hdst := compatB_file hc hsrc
        match hdn : alookup dst n with
        | none => simp [fileAt, hsrc, hdn, Option.or]
        | some (.file c2) => simp [fileAt, hsrc, hdn, Option.or]
        | some (.dir d1) => exact absurd hdn (hdst d1)
      | some (.dir d) =>
        have hw2 : wfDir d = true := wfDir_lookup_dir hw hsrc
        have hc2 := (compatB_dir hc hsrc).1
        have hdst := (compatB_dir hc hsrc).2
        change fileAt (mergeDirectories (getDir dst n) d) (r :: rs)
          = (fileAt src (n :: r :: rs)).or (fileAt dst (n :: r :: rs))
        rw [ih (getDir dst n) d hw2 hc2]
        match hdn : alookup dst n with
        | none =>
          rw [getDir_eq_nil hdn]
          simp [fileAt, hsrc, hdn, fileAt_nil, Option.or]
        | some (.file c) => exact absurd hdn (hdst c)
        | some (.dir d1) =>
          rw [getDir_eq_of_dir hdn]
          simp [fileAt, hsrc, hdn, Option.or]

/-- C1: in the staged DownloadChapter, every write of the chapter download
targets the staging filesystem by construction (the staged computation
receives only the private staging tree and a read-only exists view of the
destination), and the caller's filesystem changes only in the final merge:
when the staged computation fails, the destination tree is returned exactly
as it was; when it succeeds, the merge copies the staged tree file-by-file
onto the destination, overwriting pre-existing files at staged paths and
leaving every other path untouched, so the destination only ever holds the
complete staged artifacts. -/
theorem downloadChapter_staged_publish
    (realTree : List (String × FsEntry))
    (stage : (List String → Bool) →
      Except String (List (String × FsEntry) × String)) :
    (∀ e, stage (existsOracle realTree) = .error e →
      DownloadChapterStaged realTree stage = (.error e, realTree)) ∧
    (∀ staged path, stage (existsOracle realTree) = .ok (staged, path) →
      wfDir staged = true → compatB realTree staged = true →
      (DownloadChapterStaged realTree stage).1 = .ok path ∧
      ∀ p, fileAt (DownloadChapterStaged realTree stage).2 p
        = (fileAt staged p).or (fileAt realTree p)) := by
  constructor
  · intro e he
    simp [DownloadChapterStaged, he]
  · intro staged path hs hw hc
    constructor
    · simp [DownloadChapterStaged, hs]
    · intro p
      simp only [DownloadChapterStaged, hs]
      exact fileAt_merge p realTree staged hw hc

/-- C1 witness: a concrete staged download over a destination already
holding an unrelated file and an older version of one artifact. -/
theorem downloadChapter_staged_publish_witness :
    (DownloadChapterStaged realSample stageSample).1 = .ok "out/ch1.cbz" ∧
    ∀ p, fileAt (DownloadChapterStaged realSample stageSample).2 p
      = (fileAt stagedSample p).or (fileAt realSample p) :=
  (downloadChapter_staged_publish realSample stageSample).2
    stagedSample "out/ch1.cbz" rfl
    (by simp [stagedSample, wfDir])
    (by simp [realSample, stagedSample, compatB, entryCompat, alookup, getDir])

end Libmangal
